import Mathlib

/-!
Verification development for the RB3Enhanced music video player
(files rb3_player_nogui.py and rb3_gui_player.py).

The Python core is shallowly embedded: Python byte strings and text
strings are lists of natural numbers (byte values, respectively Unicode
code points); the mutable listener object becomes an explicit state
record; the external collaborators (YouTube search, stream resolution,
the VLC process, and the arbitrary-element choice made by set.pop) are
parameters gathered in an environment record; observable side effects
(console triggers, player start/stop) are collected in an action trace.

Unicode-dependent text predicates (str.isdigit, str.lower and the
case-insensitive regex literal comparisons) are modelled on the ASCII
plane, which covers every concrete scenario of the specification; the
whitespace class is modelled with the full code point set that Python
regular expressions use.  The UTF-8 decoder is modelled byte-exactly,
including the maximal-subpart error ranges CPython uses for the
errors equal to ignore and replace handlers.
-/

namespace RB3

/-- Code points of a Lean string literal, modelling a Python text string
as a list of code points. -/
def strL (s : String) : List Nat := s.toList.map Char.toNat

/-- Whitespace class used by Python regular expressions and str.strip on
text strings. -/
def pyIsSpace (c : Nat) : Bool :=
  c = 32 || (9 ≤ c && c ≤ 13) || (28 ≤ c && c ≤ 31) || c = 133 || c = 160 ||
  c = 5760 || (8192 ≤ c && c ≤ 8202) || c = 8232 || c = 8233 || c = 8239 ||
  c = 8287 || c = 12288

/-- ASCII lower-casing, modelling str.lower on the ASCII plane. -/
def asciiLower (c : Nat) : Nat := if 65 ≤ c && c ≤ 90 then c + 32 else c

/-- Lower-casing of a whole string (str.lower), ASCII plane. -/
def pyLower (s : List Nat) : List Nat := s.map asciiLower

/-- Decimal digit test, modelling str.isdigit on the ASCII plane. -/
def asciiIsDigit (c : Nat) : Bool := 48 ≤ c && c ≤ 57

/-- Python str.isdigit: true iff the string is non-empty and every
character is a decimal digit. -/
def pyIsDigitStr (s : List Nat) : Bool := !s.isEmpty && s.all asciiIsDigit

/-- Python int(...) on a string of decimal digits. -/
def pyInt (s : List Nat) : Nat := s.foldl (fun a c => 10 * a + (c - 48)) 0

/-- Removal of trailing whitespace (the right half of str.strip). -/
def rtrimWs (s : List Nat) : List Nat := (s.reverse.dropWhile pyIsSpace).reverse

/-- Python str.strip: remove leading and trailing whitespace. -/
def pyStrip (s : List Nat) : List Nat := rtrimWs (s.dropWhile pyIsSpace)

/-- Removal of trailing NUL bytes, modelling bytes.rstrip with a NUL
argument as used on the packet payload. -/
def pyRstripNul (s : List Nat) : List Nat :=
  (s.reverse.dropWhile (fun c => c = 0)).reverse

/-- UTF-8 continuation byte test. -/
def utf8Cont (b : Nat) : Bool := 128 ≤ b && b ≤ 191

/-- One step of the CPython UTF-8 decoder on lead byte b followed by rest:
returns the number of extra bytes consumed after the lead and either the
decoded code point or none for an invalid maximal subpart. -/
def utf8Step (b : Nat) (rest : List Nat) : Nat × Option Nat :=
  if b < 128 then (0, some b)
  else if b < 194 then (0, none)
  else if b ≤ 223 then
    match rest with
    | c1 :: _ => if utf8Cont c1 then (1, some ((b - 192) * 64 + (c1 - 128))) else (0, none)
    | [] => (0, none)
  else if b ≤ 239 then
    let lo := if b = 224 then 160 else 128
    let hi := if b = 237 then 159 else 191
    match rest with
    | c1 :: rest1 =>
      if lo ≤ c1 && c1 ≤ hi then
        match rest1 with
        | c2 :: _ =>
          if utf8Cont c2 then
            (2, some ((b - 224) * 4096 + (c1 - 128) * 64 + (c2 - 128)))
          else (1, none)
        | [] => (1, none)
      else (0, none)
    | [] => (0, none)
  else if b ≤ 244 then
    let lo := if b = 240 then 144 else 128
    let hi := if b = 244 then 143 else 191
    match rest with
    | c1 :: rest1 =>
      if lo ≤ c1 && c1 ≤ hi then
        match rest1 with
        | c2 :: rest2 =>
          if utf8Cont c2 then
            match rest2 with
            | c3 :: _ =>
              if utf8Cont c3 then
                (3, some ((b - 240) * 262144 + (c1 - 128) * 4096 + (c2 - 128) * 64 + (c3 - 128)))
              else (2, none)
            | [] => (2, none)
          else (1, none)
        | [] => (1, none)
      else (0, none)
    | [] => (0, none)
  else (0, none)

/-- Fueled UTF-8 decoding loop; each step consumes at least the lead
byte, so fuel equal to the byte count suffices. rep selects the error
handler: true replaces each invalid subpart with U+FFFD, false drops it
(the errors equal to ignore handler the source uses). -/
def utf8DecodeFuel (rep : Bool) : Nat → List Nat → List Nat
  | 0, _ => []
  | _ + 1, [] => []
  | fuel + 1, b :: rest =>
    let s := utf8Step b rest
    let tail := utf8DecodeFuel rep fuel (rest.drop s.1)
    match s.2 with
    | some cp => cp :: tail
    | none => if rep then 65533 :: tail else tail

/-- Python bytes.decode with the utf-8 codec; rep selects between the
replace (true) and ignore (false) error handlers. -/
def utf8DecodeWith (rep : Bool) (l : List Nat) : List Nat :=
  utf8DecodeFuel rep l.length l

/-- Magic constant of the RB3Enhanced event protocol. -/
def RB3E_EVENTS_MAGIC : Nat := 0x52423345

/-- Big-endian 32-bit read of the first four bytes, modelling
struct.unpack of a four byte big-endian unsigned field. -/
def be32 (l : List Nat) : Nat :=
  l.getD 0 0 * 16777216 + l.getD 1 0 * 65536 + l.getD 2 0 * 256 + l.getD 3 0

/-- Decoded event: raw event type byte and payload text. -/
structure Event where
  etype : Nat
  payload : List Nat
  deriving DecidableEq

/-- Event kinds of the specification; the wire carries the raw type
byte, and every byte other than 0..3 is an observable Unknown event. -/
inductive EventKind where
  | alive
  | state
  | songName
  | songArtist
  | unknown
  deriving DecidableEq

/-- Mapping from the event type byte to the event kind. -/
def kindOfType (t : Nat) : EventKind :=
  if t = 0 then EventKind.alive
  else if t = 1 then EventKind.state
  else if t = 2 then EventKind.songName
  else if t = 3 then EventKind.songArtist
  else EventKind.unknown

/-- Header parsing and payload extraction of RB3EventListener.process_packet
(identical in both source files): reject short datagrams, wrong magic and
wrong version; otherwise take the declared number of payload bytes
starting at offset 8, strip trailing NUL bytes, and decode as UTF-8 with
the ignore error handler. -/
def decodePacket (data : List Nat) : Option Event :=
  if data.length < 8 then none
  else
    let magic := be32 (data.take 4)
    let version := data.getD 4 0
    let ptype := data.getD 5 0
    let psize := data.getD 6 0
    if magic ≠ RB3E_EVENTS_MAGIC then none
    else if version ≠ 0 then none
    else
      let payload :=
        if 0 < psize then utf8DecodeWith false (pyRstripNul ((data.drop 8).take psize))
        else []
      some ⟨ptype, payload⟩

/-- Match attempt of the parenthesis regex (whitespace, an opening
parenthesis, non-closing characters, a closing parenthesis, whitespace)
at the head of the string; on success returns the remainder after the
match.  The greedy stars of the pattern never need backtracking here
because whitespace is disjoint from both parenthesis characters. -/
def matchParenAt (l : List Nat) : Option (List Nat) :=
  match l.dropWhile pyIsSpace with
  | c :: rest =>
    if c = 40 then
      match rest.dropWhile (fun ch => ch != 41) with
      | _ :: rest2 => some (rest2.dropWhile pyIsSpace)
      | [] => none
    else none
  | [] => none

/-- Fueled driver of re.sub with the parenthesis pattern and empty
replacement: scan left to right, replace each match, continue after it.
Every match consumes at least one character, so fuel equal to the string
length suffices. -/
def pySubParensFuel : Nat → List Nat → List Nat
  | 0, l => l
  | _ + 1, [] => []
  | fuel + 1, c :: rest =>
    match matchParenAt (c :: rest) with
    | some rem => pySubParensFuel fuel rem
    | none => c :: pySubParensFuel fuel rest

/-- First substitution of clean_search_terms: remove every
whitespace-surrounded parenthesized group. -/
def pySubParens (l : List Nat) : List Nat := pySubParensFuel l.length l

/-- Case-insensitive literal prefix match (ASCII plane); on success
returns the remainder. -/
def stripPrefixCI : List Nat → List Nat → Option (List Nat)
  | [], l => some l
  | _ :: _, [] => none
  | p :: ps, c :: cs =>
    if asciiLower c = asciiLower p then stripPrefixCI ps cs else none

/-- Ordered alternatives of the trailing-modifier pattern. -/
def modAlternatives : List (List Nat) :=
  [ strL r"Live", strL r"Acoustic", strL r"Demo", strL r"Remix" ]

/-- Try a list of literal alternatives in order, case-insensitively. -/
def tryAltsCI : List (List Nat) → List Nat → Option (List Nat)
  | [], _ => none
  | a :: rest, l =>
    match stripPrefixCI a l with
    | some l2 => some l2
    | none => tryAltsCI rest l

/-- Match attempt of the trailing-modifier regex (whitespace, a hyphen,
whitespace, one of Live/Acoustic/Demo/Remix case-insensitively, then any
characters up to a newline or the end) at the head of the string. -/
def matchDashAt (l : List Nat) : Option (List Nat) :=
  match l.dropWhile pyIsSpace with
  | c :: rest =>
    if c = 45 then
      match tryAltsCI modAlternatives (rest.dropWhile pyIsSpace) with
      | some rest2 => some (rest2.dropWhile (fun ch => ch != 10))
      | none => none
    else none
  | [] => none

/-- Fueled driver of re.sub with the trailing-modifier pattern and empty
replacement. -/
def pySubDashFuel : Nat → List Nat → List Nat
  | 0, l => l
  | _ + 1, [] => []
  | fuel + 1, c :: rest =>
    match matchDashAt (c :: rest) with
    | some rem => pySubDashFuel fuel rem
    | none => c :: pySubDashFuel fuel rest

/-- Second substitution of clean_search_terms: remove trailing modifiers
introduced by a hyphen. -/
def pySubDash (l : List Nat) : List Nat := pySubDashFuel l.length l

/-- Ordered alternatives of the featuring separator. -/
def featAlternatives : List (List Nat) :=
  [ strL r"feat.", strL r"ft.", strL r"featuring" ]

/-- One alternative of the featuring separator matched at l1, requiring
at least one whitespace character after the literal. -/
def featAltAt (alt l1 : List Nat) : Bool :=
  match stripPrefixCI alt l1 with
  | some l2 =>
    match l2 with
    | c :: _ => pyIsSpace c
    | [] => false
  | none => false

/-- Match test of the featuring-separator regex (one or more whitespace
characters, one of the alternatives case-insensitively, one or more
whitespace characters) at the head of the string. -/
def matchFeatAt (l : List Nat) : Bool :=
  match l with
  | c :: _ =>
    pyIsSpace c && featAlternatives.any (fun alt => featAltAt alt (l.dropWhile pyIsSpace))
  | [] => false

/-- First element of re.split with the featuring-separator pattern: the
characters before the leftmost match (the whole string when there is no
match). -/
def pySplitFeatHead : List Nat → List Nat
  | [] => []
  | c :: rest => if matchFeatAt (c :: rest) then [] else c :: pySplitFeatHead rest

/-- YouTubeSearcher.clean_search_terms (identical in both source files):
remove parenthesized groups and trailing hyphen modifiers from the song,
keep only the artist part before a featuring separator, and strip
whitespace from both. -/
def clean_search_terms (artist song : List Nat) : List Nat × List Nat :=
  let cs1 := pySubParens song
  let cs2 := pySubDash cs1
  let clean_song := pyStrip cs2
  let clean_artist := pyStrip (pySplitFeatHead artist)
  (clean_artist, clean_song)

/-- One search candidate as returned by the external search collaborator:
video identifier, snippet title and channel title. -/
structure Candidate where
  videoId : Nat
  title : List Nat
  channelTitle : List Nat
  deriving DecidableEq

/-- External collaborators of the core: the search service (query text to
candidate list), the stream resolver (video identifier to playable URL),
and the arbitrary element that Python set.pop removes from a non-empty
set. -/
structure Env where
  search : List Nat → List Candidate
  resolve : Nat → Option Nat
  pop : Finset Nat → Nat

/-- The ordered query plan of YouTubeSearcher.search_video. -/
def search_queries (ca cs : List Nat) : List (List Nat) :=
  [ ca ++ strL r" " ++ cs ++ strL r" official music video"
  , ca ++ strL r" " ++ cs ++ strL r" music video"
  , ca ++ strL r" " ++ cs ++ strL r" official"
  , ca ++ strL r" " ++ cs ]

/-- Cache key of search_video: lower-cased artist, separator, lower-cased
song. -/
def mkSearchKey (ca cs : List Nat) : List Nat :=
  pyLower ca ++ strL r" - " ++ pyLower cs

/-- Lookup in the search cache (a Python dict modelled as an association
list with newest entry first). -/
def lookupCache (cache : List (List Nat × Nat)) (key : List Nat) : Option Nat :=
  (cache.find? (fun p => p.1 == key)).map (fun p => p.2)

/-- Substring containment, modelling the Python in operator on strings. -/
def pyContains : List Nat → List Nat → Bool
  | t, [] => t.isEmpty
  | t, c :: rest => t.isPrefixOf (c :: rest) || pyContains t rest

/-- Candidate acceptance test of the inner loop of search_video: the
lowered title contains both cleaned terms, or the lowered channel title
contains one of official, records, music or the lowered artist. -/
def candMatches (ca cs : List Nat) (it : Candidate) : Bool :=
  let video_title := pyLower it.title
  let video_channel := pyLower it.channelTitle
  let is_official :=
    [ strL r"official", strL r"records", strL r"music", pyLower ca ].any
      (fun t => pyContains t video_channel)
  let has_song := pyContains (pyLower cs) video_title
  let has_artist := pyContains (pyLower ca) video_title
  (has_song && has_artist) || is_official

/-- Inner candidate loop of search_video: first candidate satisfying the
acceptance test, none when no candidate does. -/
def select_in_items (ca cs : List Nat) : List Candidate → Option Nat
  | [] => none
  | it :: rest =>
    if candMatches ca cs it then some it.videoId else select_in_items ca cs rest

/-- Result of search_video: the chosen video identifier, the updated
cache, and the trace of queries issued to the search collaborator. -/
structure SearchOut where
  result : Option Nat
  cache : List (List Nat × Nat)
  issued : List (List Nat)
  deriving DecidableEq

/-- Query loop of search_video: for each query of the plan in order, ask
the collaborator; return the first accepted candidate, otherwise the
first candidate of the first non-empty response, writing the cache on
either outcome; move to the next query only on an empty response. -/
def search_video_loop (env : Env) (cache : List (List Nat × Nat))
    (key ca cs : List Nat) : List (List Nat) → SearchOut
  | [] => ⟨none, cache, []⟩
  | q :: qs =>
    let items := env.search q
    match select_in_items ca cs items with
    | some vid => ⟨some vid, (key, vid) :: cache, [q]⟩
    | none =>
      match items with
      | it :: _ => ⟨some it.videoId, (key, it.videoId) :: cache, [q]⟩
      | [] =>
        let r := search_video_loop env cache key ca cs qs
        ⟨r.result, r.cache, q :: r.issued⟩

/-- YouTubeSearcher.search_video (identical logic in both source files,
assuming an initialized API client): clean the terms, short-circuit on a
cache hit, otherwise run the query plan. -/
def search_video (env : Env) (cache : List (List Nat × Nat))
    (artist song : List Nat) : SearchOut :=
  let p := clean_search_terms artist song
  let key := mkSearchKey p.1 p.2
  match lookupCache cache key with
  | some vid => ⟨some vid, cache, []⟩
  | none => search_video_loop env cache key p.1 p.2 (search_queries p.1 p.2)

/-- Observable side effects emitted while processing events. -/
inductive Action where
  | songStarting
  | returnedToMenu
  | stopPlayer
  | vlcStart (url videoId : Nat)
  | alreadyPlayed (videoId : Nat)
  | pipelineInvoked (artist song : List Nat)
  deriving DecidableEq

/-- Trigger actions of the specification (console announcements of the
two state transitions). -/
def isTrigger : Action → Bool
  | Action.songStarting => true
  | Action.returnedToMenu => true
  | _ => false

/-- Recognizer of match/resolve pipeline invocations in a trace. -/
def isPipelineCall : Action → Bool
  | Action.pipelineInvoked _ _ => true
  | _ => false

/-- Synchronization settings read by the listener (module constants in
rb3_player_nogui.py, dictionary entries with default true in
rb3_gui_player.py).  The start delay only sleeps and is omitted. -/
structure Settings where
  syncVideoToSong : Bool
  preloadVideos : Bool
  autoQuitOnMenu : Bool
  deriving DecidableEq

/-- Pending playback record: the tuple stored in self.pending_video. -/
structure PendingVideo where
  streamUrl : Nat
  videoId : Nat
  artist : List Nat
  song : List Nat
  deriving DecidableEq

/-- Mutable fields of RB3EventListener together with the played set and
search cache owned by its collaborator objects. -/
structure ListenerState where
  game_state : Nat
  pending_video : Option PendingVideo
  current_song : List Nat
  current_artist : List Nat
  search_cache : List (List Nat × Nat)
  played_videos : Finset Nat
  deriving DecidableEq

/-- VLCPlayer.play_video of rb3_player_nogui.py (assuming VLC present):
stop the current video, start VLC on the URL, remember the identifier in
the played set and remove an arbitrary element once the set holds more
than ten entries.  This variant never consults the played set before
starting. -/
def play_video_nogui (env : Env) (played : Finset Nat) (url vid : Nat) :
    Finset Nat × List Action :=
  let played1 := insert vid played
  let played2 := if 10 < played1.card then played1.erase (env.pop played1) else played1
  (played2, [Action.stopPlayer, Action.vlcStart url vid])

/-- VLCPlayer.play_video of rb3_gui_player.py (assuming VLC present):
identical, except that an identifier already in the played set makes the
call return without starting the player. -/
def play_video_gui (env : Env) (played : Finset Nat) (url vid : Nat) :
    Finset Nat × List Action :=
  if vid ∈ played then (played, [Action.alreadyPlayed vid])
  else
    let played1 := insert vid played
    let played2 := if 10 < played1.card then played1.erase (env.pop played1) else played1
    (played2, [Action.stopPlayer, Action.vlcStart url vid])

/-- State value decoding of handle_state_change: parse all-digit text as
an integer, otherwise take the code of the first character of a
non-empty payload, otherwise zero. -/
def decodeState (s : List Nat) : Nat :=
  if pyIsDigitStr s then pyInt s
  else
    match s with
    | c :: _ => c
    | [] => 0

/-- RB3EventListener.start_pending_video (delay sleep omitted): play the
pending record with the nogui player and clear the pending slot. -/
def start_pending_video (env : Env) (st : ListenerState) :
    ListenerState × List Action :=
  match st.pending_video with
  | none => (st, [])
  | some pv =>
    let r := play_video_nogui env st.played_videos pv.streamUrl pv.videoId
    ({ st with played_videos := r.1, pending_video := none }, r.2)

/-- RB3EventListener.handle_state_change: the two recognized transitions
are stored-state 0 to new value 1 (song starting; start a pending video
when one exists and synchronization is on) and stored-state 1 to new
value 0 (returned to menus; stop the player when configured; discard any
pending video); the new value is stored in every case. -/
def handle_state_change (env : Env) (settings : Settings) (st : ListenerState)
    (payload : List Nat) : ListenerState × List Action :=
  let new_state := decodeState payload
  if st.game_state = 0 ∧ new_state = 1 then
    let r :=
      if st.pending_video.isSome && settings.syncVideoToSong then
        start_pending_video env st
      else (st, [])
    ({ r.1 with game_state := new_state }, Action.songStarting :: r.2)
  else if st.game_state = 1 ∧ new_state = 0 then
    ({ st with pending_video := none, game_state := new_state },
      Action.returnedToMenu ::
        (if settings.autoQuitOnMenu then [Action.stopPlayer] else []))
  else
    ({ st with game_state := new_state }, [])

/-- RB3EventListener.prepare_video: search, resolve, store the pending
record, start it at once when already in game, and clear both
accumulator slots on every outcome. -/
def prepare_video (env : Env) (st : ListenerState) : ListenerState × List Action :=
  let so := search_video env st.search_cache st.current_artist st.current_song
  let st1 := { st with search_cache := so.cache }
  match so.result with
  | some vid =>
    match env.resolve vid with
    | some url =>
      let st2 :=
        { st1 with
          pending_video := some ⟨url, vid, st1.current_artist, st1.current_song⟩ }
      let r := if st2.game_state = 1 then start_pending_video env st2 else (st2, [])
      ({ r.1 with current_song := [], current_artist := [] },
        Action.pipelineInvoked st.current_artist st.current_song :: r.2)
    | none =>
      ({ st1 with current_song := [], current_artist := [] },
        [Action.pipelineInvoked st.current_artist st.current_song])
  | none =>
    ({ st1 with current_song := [], current_artist := [] },
      [Action.pipelineInvoked st.current_artist st.current_song])

/-- RB3EventListener.play_current_song: search, resolve and play at once,
clearing both accumulator slots on every outcome. -/
def play_current_song (env : Env) (st : ListenerState) : ListenerState × List Action :=
  let so := search_video env st.search_cache st.current_artist st.current_song
  let st1 := { st with search_cache := so.cache }
  match so.result with
  | some vid =>
    match env.resolve vid with
    | some url =>
      let r := play_video_nogui env st1.played_videos url vid
      ({ st1 with played_videos := r.1, current_song := [], current_artist := [] },
        Action.pipelineInvoked st.current_artist st.current_song :: r.2)
    | none =>
      ({ st1 with current_song := [], current_artist := [] },
        [Action.pipelineInvoked st.current_artist st.current_song])
  | none =>
    ({ st1 with current_song := [], current_artist := [] },
      [Action.pipelineInvoked st.current_artist st.current_song])

/-- Event dispatch of process_packet: Alive prints only, State runs the
state machine, SongName and SongArtist overwrite the accumulator slot,
any other type is ignored. -/
def dispatch_event (env : Env) (settings : Settings) (st : ListenerState)
    (ev : Event) : ListenerState × List Action :=
  if ev.etype = 0 then (st, [])
  else if ev.etype = 1 then handle_state_change env settings st ev.payload
  else if ev.etype = 2 then ({ st with current_song := ev.payload }, [])
  else if ev.etype = 3 then ({ st with current_artist := ev.payload }, [])
  else (st, [])

/-- Accumulator trigger at the bottom of process_packet: when both slots
are non-empty, run prepare_video when synchronization and preloading are
both on, otherwise play at once. -/
def song_trigger (env : Env) (settings : Settings) (st : ListenerState) :
    ListenerState × List Action :=
  if !st.current_song.isEmpty && !st.current_artist.isEmpty then
    if settings.syncVideoToSong && settings.preloadVideos then prepare_video env st
    else play_current_song env st
  else (st, [])

/-- RB3EventListener.process_packet: decode, dispatch, then run the
accumulator trigger. A malformed datagram is dropped with no effect. -/
def process_packet (env : Env) (settings : Settings) (st : ListenerState)
    (data : List Nat) : ListenerState × List Action :=
  match decodePacket data with
  | none => (st, [])
  | some ev =>
    let r1 := dispatch_event env settings st ev
    let r2 := song_trigger env settings r1.1
    (r2.1, r1.2 ++ r2.2)

/-- Sequential processing of a list of datagrams, concatenating traces. -/
def runPackets (env : Env) (settings : Settings) :
    ListenerState → List (List Nat) → ListenerState × List Action
  | st, [] => (st, [])
  | st, d :: ds =>
    let r := process_packet env settings st d
    let r2 := runPackets env settings r.1 ds
    (r2.1, r.2 ++ r2.2)

/-- Decimal value of a digit string, written as the specification reads
it: each digit weighted by a power of ten. Used to compare against the
accumulator formulation of pyInt. -/
def specDecimalVal : List Nat → Nat
  | [] => 0
  | c :: rest => (c - 48) * 10 ^ rest.length + specDecimalVal rest

/-- State value decoding as the specification words it: all-digit text
parses as an integer, otherwise a non-empty payload yields the code of
its first character, otherwise zero. -/
def specStateValue (s : List Nat) : Nat :=
  if s = [] then 0
  else if s.all asciiIsDigit then specDecimalVal s
  else s.headD 0

/-- Candidate selection as the specification words it: the first
candidate satisfying the acceptance condition, else the first candidate
of the list. -/
def specSelect (ca cs : List Nat) (items : List Candidate) : Option Nat :=
  match items.find? (fun it => candMatches ca cs it) with
  | some it => some it.videoId
  | none => items.head?.map (fun it => it.videoId)

/-- Search outcome as the specification words it: the selection applied
to the response of the first query of the plan with any candidates; no
match when every query comes back empty. -/
def specSearchOutcome (env : Env) (ca cs : List Nat) :
    List (List Nat) → Option Nat
  | [] => none
  | q :: qs =>
    if (env.search q).isEmpty then specSearchOutcome env ca cs qs
    else specSelect ca cs (env.search q)

/-- Queries issued, as the specification words it: the plan in order up
to and including the first query with any candidates. -/
def specIssuedQueries (env : Env) : List (List Nat) → List (List Nat)
  | [] => []
  | q :: qs =>
    if (env.search q).isEmpty then q :: specIssuedQueries env qs else [q]

/-- Initial listener state: menus, nothing pending, empty accumulator,
empty cache and played set. -/
def initState : ListenerState := ⟨0, none, [], [], [], ∅⟩

/-- Environment whose search always comes back empty; used for concrete
runs that never reach the collaborators. -/
def envEmpty : Env := ⟨fun _ => [], fun _ => none, fun _ => 0⟩

/-- Default settings: synchronization, preloading and auto-quit on. -/
def settingsDefault : Settings := ⟨true, true, true⟩

/-- Well-formed State packet carrying the single payload byte v. -/
def statePacket (v : Nat) : List Nat := [82, 66, 51, 69, 0, 1, 1, 0, v]

/-- Well-formed SongName packet with declared length 5, payload Hello
and NUL padding. -/
def helloPacket : List Nat :=
  [82, 66, 51, 69, 0, 2, 5, 0] ++ strL r"Hello" ++ [0, 0, 0]

/-- Well-formed packet whose two payload bytes are an invalid UTF-8 lead
byte followed by the letter A. -/
def badUtf8Packet : List Nat := [82, 66, 51, 69, 0, 2, 2, 0, 255, 65]

/-- Well-formed packet of minimal length with declared payload length
zero. -/
def emptyPayloadPacket : List Nat := [82, 66, 51, 69, 0, 0, 0, 0]

/-- Well-formed packet declaring 200 payload bytes while only two are
present. -/
def overlongPacket : List Nat := [82, 66, 51, 69, 0, 2, 200, 0, 72, 105]

/-- Sample pending record for witnesses. -/
def pvDemo : PendingVideo := ⟨5, 7, [], []⟩

/-- Menu-state listener with a pending video. -/
def stPend : ListenerState := { initState with pending_video := some pvDemo }

/-- In-game listener with a pending video. -/
def stInGame : ListenerState :=
  { initState with game_state := 1, pending_video := some pvDemo }

/-- Listener whose stored state value is 65, as after a State payload
starting with a non-digit character. -/
def st65 : ListenerState :=
  { initState with game_state := 65, pending_video := some pvDemo }

/-- Sample candidate whose title contains both cleaned terms. -/
def candA : Candidate := ⟨11, strL r"Foo performs Bar", strL r"some channel"⟩

/-- Environment answering exactly one query of the plan for Foo/Bar. -/
def envOne : Env :=
  ⟨fun q => if q == strL r"Foo Bar official music video" then [candA] else [],
   fun _ => none, fun _ => 0⟩

/-- Listener that already received a SongArtist event. -/
def stArtist : ListenerState := { initState with current_artist := strL r"Queen" }

/-- Well-formed SongName packet with payload Bo. -/
def songPacket : List Nat := [82, 66, 51, 69, 0, 2, 2, 0] ++ strL r"Bo"

/-- Characterization of decodePacket on well-formed headers: it succeeds
and the payload is the declared slice with trailing NUL bytes removed,
decoded with the ignore handler (uniformly, also for declared length
zero). -/
theorem decodePacket_success (d : List Nat) (h8 : ¬ d.length < 8)
    (hm : be32 (d.take 4) = RB3E_EVENTS_MAGIC) (hv : d.getD 4 0 = 0) :
    decodePacket d
      = some ⟨d.getD 5 0,
          utf8DecodeWith false (pyRstripNul ((d.drop 8).take (d.getD 6 0)))⟩ := by
  simp only [decodePacket]
  rw [if_neg h8, if_neg (fun hh => hh hm), if_neg (fun hh => hh hv)]
  by_cases hp : 0 < d.getD 6 0
  · rw [if_pos hp]
  · rw [if_neg hp]
    have h0 : d.getD 6 0 = 0 := by omega
    rw [h0]
    rfl

/-- C4: decode reports a malformed packet, with no event, no exception
and no state change, exactly when the datagram is shorter than eight
bytes, the big-endian magic differs from 0x52423345, or the version byte
differs from zero; in particular every datagram shorter than eight bytes
is malformed. -/
theorem C4_malformed_packets :
    (∀ d : List Nat,
      decodePacket d = none ↔
        (d.length < 8 ∨ be32 (d.take 4) ≠ RB3E_EVENTS_MAGIC ∨ d.getD 4 0 ≠ 0)) ∧
    (∀ d : List Nat, d.length < 8 → decodePacket d = none) ∧
    (∀ (env : Env) (settings : Settings) (st : ListenerState) (d : List Nat),
      decodePacket d = none → process_packet env settings st d = (st, [])) := by
  refine ⟨fun d => ⟨?_, ?_⟩, fun d h => by simp [decodePacket, h],
    fun env settings st d h => by simp [process_packet, h]⟩
  · intro h
    by_contra hc
    push_neg at hc
    obtain ⟨h1, h2, h3⟩ := hc
    rw [decodePacket_success d (by omega) h2 h3] at h
    exact Option.noConfusion h
  · intro h
    rcases h with h | h | h
    · simp only [decodePacket]
      rw [if_pos h]
    · by_cases h8 : d.length < 8
      · simp only [decodePacket]
        rw [if_pos h8]
      · simp only [decodePacket]
        rw [if_neg h8, if_pos h]
    · by_cases h8 : d.length < 8
      · simp only [decodePacket]
        rw [if_pos h8]
      · by_cases hmagic : be32 (d.take 4) = RB3E_EVENTS_MAGIC
        · simp only [decodePacket]
          rw [if_neg h8, if_neg (fun hh => hh hmagic), if_pos h]
        · simp only [decodePacket]
          rw [if_neg h8, if_pos hmagic]

/-- C4 witness: a one-byte datagram is malformed and leaves an arbitrary
concrete state untouched. -/
theorem C4_malformed_packets_witness :
    decodePacket [0] = none ∧
    process_packet envEmpty settingsDefault stPend [0] = (stPend, []) := by
  have h1 := C4_malformed_packets.2.1 [0] (by decide)
  exact ⟨h1, C4_malformed_packets.2.2 envEmpty settingsDefault stPend [0] h1⟩

/-- C5 counterexample: on a well-formed packet whose payload bytes are an
invalid UTF-8 lead byte followed by the letter A, the decoded payload is
not the text produced by the replace error handler (the invalid lead is
dropped, not replaced). -/
theorem C5_replace_counterexample :
    (decodePacket badUtf8Packet).isSome = true ∧
    (decodePacket badUtf8Packet).map Event.payload
      ≠ some (utf8DecodeWith true
          (pyRstripNul ((badUtf8Packet.drop 8).take (badUtf8Packet.getD 6 0)))) := by
  decide

/-- C5 (amended): for every well-formed packet with declared length n the
decoded payload equals bytes 8 to 8+n of the datagram with trailing NUL
bytes removed, decoded as UTF-8 with invalid sequences dropped (ignored)
rather than rejected; the Hello packet decodes to a SongName event with
payload Hello. -/
theorem C5_payload_decoding :
    (∀ d : List Nat, ¬ d.length < 8 → be32 (d.take 4) = RB3E_EVENTS_MAGIC →
      d.getD 4 0 = 0 →
      decodePacket d
        = some ⟨d.getD 5 0,
            utf8DecodeWith false (pyRstripNul ((d.drop 8).take (d.getD 6 0)))⟩) ∧
    decodePacket helloPacket = some ⟨2, strL r"Hello"⟩ ∧
    kindOfType 2 = EventKind.songName :=
  ⟨decodePacket_success, by decide, by decide⟩

/-- C5 witness: the payload characterization applied to the Hello
packet. -/
theorem C5_payload_decoding_witness :
    decodePacket helloPacket
      = some ⟨helloPacket.getD 5 0,
          utf8DecodeWith false
            (pyRstripNul ((helloPacket.drop 8).take (helloPacket.getD 6 0)))⟩ :=
  C5_payload_decoding.1 helloPacket (by decide) (by decide) (by decide)

/-- C9: decoding is total over the declared length byte: every datagram
with a well-formed header decodes successfully; when the declared length
reaches past the end of the datagram the payload is silently truncated
to the bytes actually present, and declared length zero yields the empty
payload. -/
theorem C9_declared_length_totality :
    ∀ d : List Nat, 8 ≤ d.length → be32 (d.take 4) = RB3E_EVENTS_MAGIC →
      d.getD 4 0 = 0 →
      (decodePacket d).isSome = true ∧
      (d.length - 8 ≤ d.getD 6 0 →
        (decodePacket d).map Event.payload
          = some (utf8DecodeWith false (pyRstripNul (d.drop 8)))) ∧
      (d.getD 6 0 = 0 → (decodePacket d).map Event.payload = some []) := by
  intro d h8 hm hv
  have h8' : ¬ d.length < 8 := by omega
  rw [decodePacket_success d h8' hm hv]
  refine ⟨rfl, ?_, ?_⟩
  · intro hn
    have ht : (d.drop 8).take (d.getD 6 0) = d.drop 8 := by
      apply List.take_of_length_le
      simp only [List.length_drop]
      omega
    simp only [Option.map_some']
    rw [ht]
  · intro h0
    simp only [Option.map_some']
    rw [h0]
    rfl

/-- C9 witness: the empty-payload packet succeeds with empty payload, and
the packet declaring 200 payload bytes with only two present decodes to
those two bytes. -/
theorem C9_declared_length_totality_witness :
    ((decodePacket emptyPayloadPacket).isSome = true ∧
      (decodePacket emptyPayloadPacket).map Event.payload = some []) ∧
    (decodePacket overlongPacket).map Event.payload
      = some (utf8DecodeWith false (pyRstripNul (overlongPacket.drop 8))) := by
  have h1 := C9_declared_length_totality emptyPayloadPacket (by decide) (by decide) (by decide)
  have h2 := C9_declared_length_totality overlongPacket (by decide) (by decide) (by decide)
  exact ⟨⟨h1.1, h1.2.2 (by decide)⟩, h2.2.1 (by decide)⟩

/-- Accumulator form of decimal parsing agrees with the digit-weight
form. -/
theorem pyInt_go (s : List Nat) :
    ∀ acc : Nat, s.foldl (fun a c => 10 * a + (c - 48)) acc
      = acc * 10 ^ s.length + specDecimalVal s := by
  induction s with
  | nil => intro acc; simp [specDecimalVal]
  | cons c rest ih =>
    intro acc
    simp only [List.foldl_cons, List.length_cons, specDecimalVal]
    rw [ih]
    ring

/-- C6: a State payload made only of decimal digits decodes to its
integer value, a non-empty payload otherwise decodes to the code of its
first character, and the empty payload decodes to zero; in particular
payload 1 gives state 1, payload A gives state 65, and the empty payload
gives state 0.  The hypothesis restricts to the ASCII plane on which the
digit test is modelled. -/
theorem C6_state_value_decoding :
    (∀ s : List Nat, (∀ c ∈ s, c < 128) → decodeState s = specStateValue s) ∧
    decodeState (strL r"1") = 1 ∧
    decodeState (strL r"A") = 65 ∧
    decodeState [] = 0 := by
  refine ⟨fun s _ => ?_, by decide, by decide, by decide⟩
  cases s with
  | nil => rfl
  | cons c rest =>
    cases hall : (c :: rest).all asciiIsDigit with
    | true =>
      have h1 : pyIsDigitStr (c :: rest) = true := by simp [pyIsDigitStr, hall]
      have h2 : decodeState (c :: rest) = pyInt (c :: rest) := by
        simp [decodeState, h1]
      have h3 : specStateValue (c :: rest) = specDecimalVal (c :: rest) := by
        simp [specStateValue, hall]
      rw [h2, h3]
      simpa [pyInt] using pyInt_go (c :: rest) 0
    | false =>
      have h1 : pyIsDigitStr (c :: rest) = false := by simp [pyIsDigitStr, hall]
      have h2 : decodeState (c :: rest) = c := by simp [decodeState, h1]
      have h3 : specStateValue (c :: rest) = c := by simp [specStateValue, hall]
      rw [h2, h3]

/-- C6 witness: the general agreement applied to the all-digit payload 1. -/
theorem C6_state_value_decoding_witness :
    decodeState (strL r"1") = specStateValue (strL r"1") :=
  C6_state_value_decoding.1 (strL r"1") (by decide)

/-- C10: a State event starts a pending playback only on the exact
transition from stored value 0 to new value 1: from any other stored
value, a payload decoding to 1 emits no song-starting trigger, starts
nothing, leaves the pending record in place, and still stores the new
value. -/
theorem C10_pending_start_requires_menu :
    ∀ (env : Env) (settings : Settings) (st : ListenerState) (payload : List Nat),
      st.game_state ≠ 0 → decodeState payload = 1 →
      Action.songStarting ∉ (handle_state_change env settings st payload).2 ∧
      (∀ u v : Nat,
        Action.vlcStart u v ∉ (handle_state_change env settings st payload).2) ∧
      (handle_state_change env settings st payload).1.game_state = 1 ∧
      (handle_state_change env settings st payload).1.pending_video
        = st.pending_video := by
  intro env settings st payload hne h1
  have c1 : ¬ (st.game_state = 0 ∧ decodeState payload = 1) := by
    intro h; exact hne h.1
  have c2 : ¬ (st.game_state = 1 ∧ decodeState payload = 0) := by
    intro h; rw [h1] at h; exact absurd h.2 one_ne_zero
  simp only [handle_state_change]
  rw [if_neg c1, if_neg c2]
  simp [h1]

/-- C10 witness: with stored state 65 (after a non-digit payload) and a
pending video, a State payload of 1 emits nothing and keeps the pending
record, while the value 1 is stored. -/
theorem C10_pending_start_requires_menu_witness :
    Action.songStarting ∉ (handle_state_change envEmpty settingsDefault st65 (strL r"1")).2 ∧
    (handle_state_change envEmpty settingsDefault st65 (strL r"1")).1.game_state = 1 ∧
    (handle_state_change envEmpty settingsDefault st65 (strL r"1")).1.pending_video
      = some pvDemo := by
  have h := C10_pending_start_requires_menu envEmpty settingsDefault st65 (strL r"1")
    (by decide) (by decide)
  exact ⟨h.1, h.2.2.1, h.2.2.2⟩

/-- C3: evaluation at the failing input.  With identifier 7 already in
the played set, the nogui play_video still stops the current video and
starts VLC again (there is no membership check), while the gui
play_video makes the same request a no-op; the capacity bound itself
holds at this input. -/
theorem C3_played_set_replay :
    (7 : Nat) ∈ ({7} : Finset Nat) ∧
    (play_video_nogui envEmpty {7} 99 7).2
      = [Action.stopPlayer, Action.vlcStart 99 7] ∧
    (play_video_gui envEmpty {7} 99 7).2 = [Action.alreadyPlayed 7] ∧
    Action.vlcStart 99 7 ∉ (play_video_gui envEmpty {7} 99 7).2 ∧
    (play_video_nogui envEmpty {7} 99 7).1.card ≤ 10 := by
  decide

/-- Branch equation: menus to in-game without a start (no pending video
or synchronization off). -/
theorem hsc_A_nostart (env : Env) (settings : Settings) (st : ListenerState)
    (payload : List Nat) (h0 : st.game_state = 0) (h1 : decodeState payload = 1)
    (hS : (st.pending_video.isSome && settings.syncVideoToSong) = false) :
    handle_state_change env settings st payload
      = ({ st with game_state := decodeState payload }, [Action.songStarting]) := by
  simp only [handle_state_change, hS, Bool.false_eq_true, if_false]
  rw [if_pos ⟨h0, h1⟩]

/-- Branch equation: menus to in-game with a pending video and
synchronization on starts the pending video. -/
theorem hsc_A_start (env : Env) (settings : Settings) (st : ListenerState)
    (payload : List Nat) (pv : PendingVideo)
    (h0 : st.game_state = 0) (h1 : decodeState payload = 1)
    (hpv : st.pending_video = some pv) (hsync : settings.syncVideoToSong = true) :
    (handle_state_change env settings st payload).1.game_state = decodeState payload ∧
    (handle_state_change env settings st payload).1.pending_video = none ∧
    (handle_state_change env settings st payload).2
      = [Action.songStarting, Action.stopPlayer,
         Action.vlcStart pv.streamUrl pv.videoId] := by
  have hS : (st.pending_video.isSome && settings.syncVideoToSong) = true := by
    rw [hpv, hsync]; rfl
  simp only [handle_state_change, hS, if_true]
  rw [if_pos ⟨h0, h1⟩]
  simp [start_pending_video, hpv, play_video_nogui]

/-- Branch equation: in-game to menus. -/
theorem hsc_B (env : Env) (settings : Settings) (st : ListenerState)
    (payload : List Nat) (h0 : st.game_state = 1) (h1 : decodeState payload = 0) :
    handle_state_change env settings st payload
      = ({ st with pending_video := none, game_state := decodeState payload },
         Action.returnedToMenu ::
           (if settings.autoQuitOnMenu then [Action.stopPlayer] else [])) := by
  have c1 : ¬ (st.game_state = 0 ∧ decodeState payload = 1) := by
    intro h; rw [h0] at h; exact absurd h.1 one_ne_zero
  simp only [handle_state_change]
  rw [if_neg c1, if_pos ⟨h0, h1⟩]

/-- Branch equation: every remaining case stores the value with no side
effect. -/
theorem hsc_other (env : Env) (settings : Settings) (st : ListenerState)
    (payload : List Nat)
    (c1 : ¬ (st.game_state = 0 ∧ decodeState payload = 1))
    (c2 : ¬ (st.game_state = 1 ∧ decodeState payload = 0)) :
    handle_state_change env settings st payload
      = ({ st with game_state := decodeState payload }, []) := by
  simp only [handle_state_change]
  rw [if_neg c1, if_neg c2]

/-- C1: the game-state machine is driven only by State events; menus to
in-game emits the song-starting trigger and starts a pending video
exactly when one exists and synchronization is on; in-game to menus
emits the returned-to-menu trigger, asks the player to stop iff
auto-stop is configured, and unconditionally discards any pending video;
every other pair of values stores the new value with no side effect.
Consequently the sequence State 1, State 0, State 1 from the initial
state yields exactly the triggers song-starting, returned-to-menu,
song-starting in that order. -/
theorem C1_state_machine :
    (∀ (env : Env) (settings : Settings) (st : ListenerState) (payload : List Nat),
      (handle_state_change env settings st payload).1.game_state
          = decodeState payload ∧
      (Action.songStarting ∈ (handle_state_change env settings st payload).2 ↔
        (st.game_state = 0 ∧ decodeState payload = 1)) ∧
      (Action.returnedToMenu ∈ (handle_state_change env settings st payload).2 ↔
        (st.game_state = 1 ∧ decodeState payload = 0)) ∧
      (st.game_state = 1 ∧ decodeState payload = 0 →
        ((Action.stopPlayer ∈ (handle_state_change env settings st payload).2) ↔
          settings.autoQuitOnMenu = true) ∧
        (handle_state_change env settings st payload).1.pending_video = none) ∧
      (∀ pv : PendingVideo,
        st.game_state = 0 → decodeState payload = 1 →
        st.pending_video = some pv → settings.syncVideoToSong = true →
        Action.vlcStart pv.streamUrl pv.videoId
            ∈ (handle_state_change env settings st payload).2 ∧
        (handle_state_change env settings st payload).1.pending_video = none) ∧
      (¬ (st.game_state = 0 ∧ decodeState payload = 1) →
        ¬ (st.game_state = 1 ∧ decodeState payload = 0) →
        handle_state_change env settings st payload
          = ({ st with game_state := decodeState payload }, []))) ∧
    (∀ (env : Env) (settings : Settings) (st : ListenerState) (ev : Event),
      ev.etype ≠ 1 →
      (dispatch_event env settings st ev).1.game_state = st.game_state) ∧
    ((runPackets envEmpty settingsDefault initState
        [statePacket 49, statePacket 48, statePacket 49]).2.filter isTrigger
      = [Action.songStarting, Action.returnedToMenu, Action.songStarting]) := by
  refine ⟨fun env settings st payload => ?_, fun env settings st ev h => ?_, by decide⟩
  · by_cases hA : st.game_state = 0 ∧ decodeState payload = 1
    · obtain ⟨h0, h1⟩ := hA
      have c2 : ¬ (st.game_state = 1 ∧ decodeState payload = 0) := by
        intro h; rw [h0] at h; exact absurd h.1 zero_ne_one
      by_cases hS : (st.pending_video.isSome && settings.syncVideoToSong) = true
      · obtain ⟨pv, hpv⟩ : ∃ pv, st.pending_video = some pv := by
          rcases hpv : st.pending_video with _ | pv
          · rw [hpv] at hS; simp at hS
          · exact ⟨pv, rfl⟩
        have hsync : settings.syncVideoToSong = true := by
          rw [Bool.and_eq_true] at hS; exact hS.2
        have h3 := hsc_A_start env settings st payload pv h0 h1 hpv hsync
        refine ⟨h3.1, ?_, ?_, fun h => absurd h c2, ?_, fun h => absurd ⟨h0, h1⟩ h⟩
        · rw [h3.2.2]; simp [h0, h1]
        · rw [h3.2.2]; simp [h0]
        · intro pv' _ _ hpv' _
          have : pv' = pv := by rw [hpv] at hpv'; exact (Option.some_inj.mp hpv').symm
          subst this
          exact ⟨by rw [h3.2.2]; simp, h3.2.1⟩
      · have hS' : (st.pending_video.isSome && settings.syncVideoToSong) = false :=
          Bool.eq_false_iff.mpr hS
        have h3 := hsc_A_nostart env settings st payload h0 h1 hS'
        refine ⟨?_, ?_, ?_, fun h => absurd h c2, ?_, fun h => absurd ⟨h0, h1⟩ h⟩
        · rw [h3]
        · rw [h3]; simp [h0, h1]
        · rw [h3]; simp [h0]
        · intro pv' _ _ hpv' hsync'
          exfalso
          apply hS
          rw [hpv', hsync']
          rfl
    · by_cases hB : st.game_state = 1 ∧ decodeState payload = 0
      · obtain ⟨h0, h1⟩ := hB
        have h3 := hsc_B env settings st payload h0 h1
        rcases hq : settings.autoQuitOnMenu with _ | _
        · refine ⟨by rw [h3], ?_, ?_, ?_, ?_, fun _ h => absurd ⟨h0, h1⟩ h⟩
          · rw [h3]; simp [hq, hA]
          · rw [h3]; simp [hq, h0, h1]
          · intro _
            exact ⟨by rw [h3]; simp [hq], by rw [h3]⟩
          · intro pv' h0' _ _ _
            exact absurd (h0 ▸ h0') one_ne_zero
        · refine ⟨by rw [h3], ?_, ?_, ?_, ?_, fun _ h => absurd ⟨h0, h1⟩ h⟩
          · rw [h3]; simp [hq, hA]
          · rw [h3]; simp [hq, h0, h1]
          · intro _
            exact ⟨by rw [h3]; simp [hq], by rw [h3]⟩
          · intro pv' h0' _ _ _
            exact absurd (h0 ▸ h0') one_ne_zero
      · have h3 := hsc_other env settings st payload hA hB
        refine ⟨by rw [h3], ?_, ?_, fun h => absurd h hB, ?_, fun _ _ => h3⟩
        · rw [h3]; simp [hA]
        · rw [h3]; simp [hB]
        · intro pv' h0' h1' _ _
          exact absurd ⟨h0', h1'⟩ hA
  · simp only [dispatch_event]
    split_ifs <;> simp_all [handle_state_change]

/-- C1 witness: the start conjunct applied at a concrete pending state,
and the stop conjunct applied at a concrete in-game state. -/
theorem C1_state_machine_witness :
    (Action.vlcStart 5 7
        ∈ (handle_state_change envEmpty settingsDefault stPend (strL r"1")).2 ∧
      (handle_state_change envEmpty settingsDefault stPend (strL r"1")).1.pending_video
        = none) ∧
    ((Action.stopPlayer
        ∈ (handle_state_change envEmpty settingsDefault stInGame (strL r"0")).2) ↔
      settingsDefault.autoQuitOnMenu = true) := by
  have h1 := (C1_state_machine.1 envEmpty settingsDefault stPend (strL r"1")).2.2.2.2.1
    pvDemo (by decide) (by decide) (by decide) (by decide)
  have h2 := ((C1_state_machine.1 envEmpty settingsDefault stInGame (strL r"0")).2.2.2.1
    ⟨by decide, by decide⟩).1
  exact ⟨h1, h2⟩

/-- The player emits no pipeline invocation. -/
theorem countP_play_nogui (env : Env) (played : Finset Nat) (url vid : Nat) :
    (play_video_nogui env played url vid).2.countP isPipelineCall = 0 := by
  simp [play_video_nogui, List.countP_cons, isPipelineCall]

/-- Starting a pending video emits no pipeline invocation. -/
theorem countP_start_pending (env : Env) (st : ListenerState) :
    (start_pending_video env st).2.countP isPipelineCall = 0 := by
  rcases hpv : st.pending_video with _ | pv
  · simp [start_pending_video, hpv]
  · simp [start_pending_video, hpv, countP_play_nogui]

/-- The state machine emits no pipeline invocation. -/
theorem countP_hsc (env : Env) (settings : Settings) (st : ListenerState)
    (payload : List Nat) :
    (handle_state_change env settings st payload).2.countP isPipelineCall = 0 := by
  by_cases hA : st.game_state = 0 ∧ decodeState payload = 1
  · by_cases hS : (st.pending_video.isSome && settings.syncVideoToSong) = true
    · obtain ⟨pv, hpv⟩ : ∃ pv, st.pending_video = some pv := by
        rcases hpv : st.pending_video with _ | pv
        · rw [hpv] at hS; simp at hS
        · exact ⟨pv, rfl⟩
      have hsync : settings.syncVideoToSong = true := by
        rw [Bool.and_eq_true] at hS; exact hS.2
      rw [(hsc_A_start env settings st payload pv hA.1 hA.2 hpv hsync).2.2]
      simp [List.countP_cons, isPipelineCall]
    · rw [hsc_A_nostart env settings st payload hA.1 hA.2 (Bool.eq_false_iff.mpr hS)]
      simp [List.countP_cons, isPipelineCall]
  · by_cases hB : st.game_state = 1 ∧ decodeState payload = 0
    · rw [hsc_B env settings st payload hB.1 hB.2]
      rcases hq : settings.autoQuitOnMenu with _ | _ <;>
        simp [hq, List.countP_cons, isPipelineCall]
    · rw [hsc_other env settings st payload hA hB]
      simp

/-- Event dispatch emits no pipeline invocation. -/
theorem countP_dispatch (env : Env) (settings : Settings) (st : ListenerState)
    (ev : Event) :
    (dispatch_event env settings st ev).2.countP isPipelineCall = 0 := by
  simp only [dispatch_event]
  split_ifs
  · rfl
  · exact countP_hsc env settings st ev.payload
  · rfl
  · rfl
  · rfl

/-- prepare_video emits exactly one pipeline invocation and clears both
accumulator slots on every outcome. -/
theorem prepare_video_props (env : Env) (st : ListenerState) :
    (prepare_video env st).2.countP isPipelineCall = 1 ∧
    (prepare_video env st).1.current_song = [] ∧
    (prepare_video env st).1.current_artist = [] := by
  simp only [prepare_video]
  rcases hso : (search_video env st.search_cache st.current_artist st.current_song).result
    with _ | vid
  · simp only [hso]
    simp [List.countP_cons, isPipelineCall]
  · simp only [hso]
    rcases hr : env.resolve vid with _ | url
    · simp only [hr]
      simp [List.countP_cons, isPipelineCall]
    · simp only [hr]
      by_cases hg : st.game_state = 1
      · simp only [hg, if_true, ite_true]
        simp [List.countP_cons, isPipelineCall, countP_start_pending]
      · simp only [hg, if_false, ite_false]
        simp [List.countP_cons, isPipelineCall]

/-- play_current_song emits exactly one pipeline invocation and clears
both accumulator slots on every outcome. -/
theorem play_current_song_props (env : Env) (st : ListenerState) :
    (play_current_song env st).2.countP isPipelineCall = 1 ∧
    (play_current_song env st).1.current_song = [] ∧
    (play_current_song env st).1.current_artist = [] := by
  simp only [play_current_song]
  rcases hso : (search_video env st.search_cache st.current_artist st.current_song).result
    with _ | vid
  · simp only [hso]
    simp [List.countP_cons, isPipelineCall]
  · simp only [hso]
    rcases hr : env.resolve vid with _ | url
    · simp only [hr]
      simp [List.countP_cons, isPipelineCall]
    · simp only [hr]
      simp [List.countP_cons, isPipelineCall, countP_play_nogui]

/-- C2: after every decoded event, when both accumulator slots are
non-empty the match/resolve pipeline runs exactly once and both slots
are cleared regardless of outcome; when a slot is empty the pipeline
does not run at all. -/
theorem C2_pipeline_exactly_once :
    ∀ (env : Env) (settings : Settings) (st : ListenerState) (d : List Nat)
      (ev : Event),
      decodePacket d = some ev →
      (((dispatch_event env settings st ev).1.current_song ≠ [] ∧
        (dispatch_event env settings st ev).1.current_artist ≠ []) →
        ((process_packet env settings st d).2.countP isPipelineCall = 1 ∧
         (process_packet env settings st d).1.current_song = [] ∧
         (process_packet env settings st d).1.current_artist = [])) ∧
      (¬ ((dispatch_event env settings st ev).1.current_song ≠ [] ∧
          (dispatch_event env settings st ev).1.current_artist ≠ []) →
        (process_packet env settings st d).2.countP isPipelineCall = 0) := by
  intro env settings st d ev hd
  have hpp : process_packet env settings st d
      = ((song_trigger env settings (dispatch_event env settings st ev).1).1,
         (dispatch_event env settings st ev).2 ++
           (song_trigger env settings (dispatch_event env settings st ev).1).2) := by
    simp [process_packet, hd]
  constructor
  · intro hboth
    have hcond : (!(dispatch_event env settings st ev).1.current_song.isEmpty &&
        !(dispatch_event env settings st ev).1.current_artist.isEmpty) = true := by
      rcases hboth with ⟨h1, h2⟩
      rcases hs : (dispatch_event env settings st ev).1.current_song with _ | _
      · exact absurd hs h1
      · rcases ha : (dispatch_event env settings st ev).1.current_artist with _ | _
        · exact absurd ha h2
        · rfl
    rw [hpp]
    simp only [song_trigger, hcond, if_true, ite_true]
    by_cases hsp : (settings.syncVideoToSong && settings.preloadVideos) = true
    · simp only [hsp, if_true, ite_true]
      refine ⟨?_, (prepare_video_props env _).2.1, (prepare_video_props env _).2.2⟩
      rw [List.countP_append, countP_dispatch, (prepare_video_props env _).1]
    · have hsp' := Bool.eq_false_iff.mpr hsp
      simp only [hsp', Bool.false_eq_true, if_false, ite_false]
      refine ⟨?_, (play_current_song_props env _).2.1, (play_current_song_props env _).2.2⟩
      rw [List.countP_append, countP_dispatch, (play_current_song_props env _).1]
  · intro hnot
    have hcond : (!(dispatch_event env settings st ev).1.current_song.isEmpty &&
        !(dispatch_event env settings st ev).1.current_artist.isEmpty) = false := by
      rcases hb : (!(dispatch_event env settings st ev).1.current_song.isEmpty &&
          !(dispatch_event env settings st ev).1.current_artist.isEmpty) with _ | _
      · rfl
      · exfalso
        apply hnot
        rw [Bool.and_eq_true] at hb
        obtain ⟨hb1, hb2⟩ := hb
        constructor
        · intro he
          rw [he] at hb1
          simp at hb1
        · intro he
          rw [he] at hb2
          simp at hb2
    rw [hpp]
    simp only [song_trigger, hcond, Bool.false_eq_true, if_false, ite_false]
    rw [List.countP_append, countP_dispatch]
    rfl

/-- C2 witness: a SongName event completing the pair runs the pipeline
exactly once (here against an empty search result) and clears both
slots. -/
theorem C2_pipeline_exactly_once_witness :
    (process_packet envEmpty settingsDefault stArtist songPacket).2.countP
        isPipelineCall = 1 ∧
    (process_packet envEmpty settingsDefault stArtist songPacket).1.current_song
        = [] ∧
    (process_packet envEmpty settingsDefault stArtist songPacket).1.current_artist
        = [] :=
  (C2_pipeline_exactly_once envEmpty settingsDefault stArtist songPacket
    ⟨2, strL r"Bo"⟩ (by decide)).1 (by decide)

/-- The inner candidate loop returns the first candidate satisfying the
acceptance test. -/
theorem select_eq_find (ca cs : List Nat) (items : List Candidate) :
    select_in_items ca cs items
      = (items.find? (fun it => candMatches ca cs it)).map (fun it => it.videoId) := by
  induction items with
  | nil => rfl
  | cons it rest ih =>
    by_cases h : candMatches ca cs it
    · simp [select_in_items, h, List.find?_cons_of_pos]
    · have hf : candMatches ca cs it = false := Bool.eq_false_iff.mpr h
      simp [select_in_items, hf, List.find?_cons_of_neg, ih]

/-- The query loop realizes the specification selection on the first
query with candidates. -/
theorem loop_result_eq_spec (env : Env) (cache : List (List Nat × Nat))
    (key ca cs : List Nat) (plan : List (List Nat)) :
    (search_video_loop env cache key ca cs plan).result
      = specSearchOutcome env ca cs plan := by
  induction plan with
  | nil => rfl
  | cons q qs ih =>
    rcases hit : env.search q with _ | ⟨it, its⟩
    · simp only [search_video_loop, specSearchOutcome, hit]
      simp [select_in_items, ih]
    · simp only [search_video_loop, specSearchOutcome, hit]
      rw [if_neg (by simp)]
      rw [select_eq_find]
      rcases hfind : (it :: its).find? (fun x => candMatches ca cs x) with _ | it2
      · simp [specSelect, hfind]
      · simp [specSelect, hfind]

/-- C8: for the first query of the plan with any candidates, the chosen
identifier is the first candidate whose title contains both normalized
terms or whose channel text matches the official heuristic, with the
first candidate as fallback; no match only when every query is empty. -/
theorem C8_candidate_selection :
    ∀ (env : Env) (cache : List (List Nat × Nat)) (artist song : List Nat),
      lookupCache cache
          (mkSearchKey (clean_search_terms artist song).1
            (clean_search_terms artist song).2) = none →
      (search_video env cache artist song).result
        = specSearchOutcome env (clean_search_terms artist song).1
            (clean_search_terms artist song).2
            (search_queries (clean_search_terms artist song).1
              (clean_search_terms artist song).2) := by
  intro env cache artist song hmiss
  simp only [search_video]
  simp only [hmiss]
  exact loop_result_eq_spec env cache _ _ _ _

/-- C8 witness: the selection rule evaluated against a one-candidate
environment on an empty cache. -/
theorem C8_candidate_selection_witness :
    (search_video envOne [] (strL r"Foo") (strL r"Bar")).result
      = specSearchOutcome envOne (clean_search_terms (strL r"Foo") (strL r"Bar")).1
          (clean_search_terms (strL r"Foo") (strL r"Bar")).2
          (search_queries (clean_search_terms (strL r"Foo") (strL r"Bar")).1
            (clean_search_terms (strL r"Foo") (strL r"Bar")).2) :=
  C8_candidate_selection envOne [] (strL r"Foo") (strL r"Bar") (by decide)

/-- dropWhile passes over a fully satisfying prefix. -/
theorem dropWhile_append_all {p : Nat → Bool} {u : List Nat} (v : List Nat)
    (h : ∀ c ∈ u, p c = true) : (u ++ v).dropWhile p = v.dropWhile p := by
  induction u with
  | nil => rfl
  | cons c cs ih =>
    have hc : p c = true := h c (List.mem_cons_self c cs)
    simp only [List.cons_append, List.dropWhile_cons, hc, if_true, ite_true]
    exact ih (fun x hx => h x (List.mem_cons_of_mem c hx))

/-- dropWhile stops inside a prefix that has a failing element. -/
theorem dropWhile_append_stop {p : Nat → Bool} {u : List Nat} (v : List Nat)
    (h : ¬ ∀ c ∈ u, p c = true) : (u ++ v).dropWhile p = u.dropWhile p ++ v := by
  induction u with
  | nil => exact absurd (by simp) h
  | cons c cs ih =>
    by_cases hc : p c = true
    · have h' : ¬ ∀ x ∈ cs, p x = true := by
        intro hall
        exact h (fun x hx => by
          rcases List.mem_cons.mp hx with rfl | hx
          · exact hc
          · exact hall x hx)
      simp only [List.cons_append, List.dropWhile_cons, hc, if_true, ite_true]
      exact ih h'
    · have hc' : p c = false := Bool.eq_false_iff.mpr hc
      simp [List.dropWhile_cons, hc']

/-- dropWhile on a list with a failing element lands on the first failing
element. -/
theorem dropWhile_not_all {p : Nat → Bool} {u : List Nat}
    (h : ¬ ∀ c ∈ u, p c = true) :
    ∃ x xs, u.dropWhile p = x :: xs ∧ p x = false ∧ x ∈ u := by
  induction u with
  | nil => exact absurd (by simp) h
  | cons c cs ih =>
    by_cases hc : p c = true
    · have h' : ¬ ∀ x ∈ cs, p x = true := by
        intro hall
        exact h (fun x hx => by
          rcases List.mem_cons.mp hx with rfl | hx
          · exact hc
          · exact hall x hx)
      obtain ⟨x, xs, h1, h2, h3⟩ := ih h'
      exact ⟨x, xs, by simp [List.dropWhile_cons, hc, h1],
        h2, List.mem_cons_of_mem c h3⟩
    · have hc' : p c = false := Bool.eq_false_iff.mpr hc
      exact ⟨c, cs, by simp [List.dropWhile_cons, hc'], hc',
        List.mem_cons_self c cs⟩

/-- Trailing-whitespace removal of an all-whitespace string is empty. -/
theorem rtrimWs_all (u : List Nat) (h : ∀ c ∈ u, pyIsSpace c = true) :
    rtrimWs u = [] := by
  have h2 := dropWhile_append_all (p := pyIsSpace) ([] : List Nat)
    (u := u.reverse) (fun c hc => h c (List.mem_reverse.mp hc))
  simpa [rtrimWs] using h2

/-- Trailing-whitespace removal commutes with a cons that is not part of
an all-whitespace string. -/
theorem rtrimWs_cons {c : Nat} {l : List Nat}
    (h : ¬ ∀ x ∈ c :: l, pyIsSpace x = true) :
    rtrimWs (c :: l) = c :: rtrimWs l := by
  by_cases hl : ∀ x ∈ l, pyIsSpace x = true
  · have hc : pyIsSpace c = false := by
      rcases hcv : pyIsSpace c with _ | _
      · rfl
      · exact absurd (fun x hx => by
          rcases List.mem_cons.mp hx with rfl | hx
          · exact hcv
          · exact hl x hx) h
    unfold rtrimWs
    simp only [List.reverse_cons]
    rw [dropWhile_append_all [c] (fun x hx => hl x (List.mem_reverse.mp hx))]
    have hrl : l.reverse.dropWhile pyIsSpace = [] := by
      simpa using dropWhile_append_all (p := pyIsSpace) ([] : List Nat)
        (u := l.reverse) (fun x hx => hl x (List.mem_reverse.mp hx))
    rw [hrl]
    simp [List.dropWhile_cons, hc]
  · unfold rtrimWs
    simp only [List.reverse_cons]
    rw [dropWhile_append_stop [c]
      (fun hall => hl (fun x hx => hall x (List.mem_reverse.mpr hx)))]
    simp

/-- The parenthesis pattern matches at the start of whitespace followed
by an opening parenthesis, a closing-free group and the closing
parenthesis, consuming everything. -/
theorem matchParenAt_ws_open (t w : List Nat)
    (ht : ∀ c ∈ t, pyIsSpace c = true) (hw : ∀ c ∈ w, c ≠ 41) :
    matchParenAt (t ++ (32 :: 40 :: (w ++ [41]))) = some [] := by
  have h40 : pyIsSpace 40 = false := by decide
  have h1 : (t ++ (32 :: 40 :: (w ++ [41]))).dropWhile pyIsSpace
      = 40 :: (w ++ [41]) := by
    have e : t ++ (32 :: 40 :: (w ++ [41])) = (t ++ [32]) ++ (40 :: (w ++ [41])) := by
      simp
    rw [e]
    rw [dropWhile_append_all (40 :: (w ++ [41]))
      (fun c hc => by
        rcases List.mem_append.mp hc with hc | hc
        · exact ht c hc
        · simp at hc
          subst hc
          rfl)]
    simp [List.dropWhile_cons, h40]
  have h2 : (w ++ [41]).dropWhile (fun ch => ch != 41) = [41] := by
    rw [dropWhile_append_all [41] (fun c hc => by simpa using hw c hc)]
    rfl
  unfold matchParenAt
  rw [h1]
  simp [h2]

/-- The parenthesis pattern cannot match at the start of a string whose
first non-whitespace character is not an opening parenthesis. -/
theorem matchParenAt_stop (t v : List Nat)
    (hne : ¬ ∀ c ∈ t, pyIsSpace c = true) (ht : ∀ c ∈ t, c ≠ 40) :
    matchParenAt (t ++ v) = none := by
  obtain ⟨x, xs, hx1, hx2, hx3⟩ := dropWhile_not_all hne
  unfold matchParenAt
  rw [dropWhile_append_stop v hne, hx1]
  simp [List.cons_append, ht x hx3]

/-- The fueled substitution driver on the empty string. -/
theorem pySubParensFuel_nil (f : Nat) : pySubParensFuel f [] = [] := by
  cases f <;> rfl

/-- Stripping a parenthesized suffix: for a title with no opening
parenthesis followed by a space, a parenthesized closing-free group and
the closing parenthesis, the substitution removes the group together
with the whitespace before it. -/
theorem pySubParensFuel_suffix (w : List Nat) (hw : ∀ c ∈ w, c ≠ 41) :
    ∀ (t : List Nat) (fuel : Nat),
      (t ++ (32 :: 40 :: (w ++ [41]))).length ≤ fuel →
      (∀ c ∈ t, c ≠ 40) →
      pySubParensFuel fuel (t ++ (32 :: 40 :: (w ++ [41]))) = rtrimWs t := by
  intro t
  induction t with
  | nil =>
    intro fuel hfuel _
    obtain ⟨f, rfl⟩ : ∃ f, fuel = f + 1 := by
      cases fuel
      · simp at hfuel
      · exact ⟨_, rfl⟩
    have hm := matchParenAt_ws_open [] w (by simp) hw
    simp only [List.nil_append] at hm ⊢
    simp only [pySubParensFuel, hm]
    exact pySubParensFuel_nil f
  | cons c t' ih =>
    intro fuel hfuel ht
    obtain ⟨f, rfl⟩ : ∃ f, fuel = f + 1 := by
      cases fuel
      · simp at hfuel
      · exact ⟨_, rfl⟩
    by_cases hall : ∀ x ∈ c :: t', pyIsSpace x = true
    · have hm := matchParenAt_ws_open (c :: t') w hall hw
      simp only [List.cons_append] at hm ⊢
      simp only [pySubParensFuel, hm]
      rw [pySubParensFuel_nil f, rtrimWs_all (c :: t') hall]
    · have hm : matchParenAt ((c :: t') ++ (32 :: 40 :: (w ++ [41]))) = none :=
        matchParenAt_stop (c :: t') _ hall ht
      simp only [List.cons_append] at hm ⊢
      simp only [pySubParensFuel, hm]
      rw [ih f (by simpa using Nat.le_of_succ_le_succ (by simpa using hfuel))
        (fun x hx => ht x (List.mem_cons_of_mem c hx))]
      rw [rtrimWs_cons hall]

/-- The trailing-modifier pattern matches at the start of whitespace, a
hyphen, whitespace, the literal Live and a newline-free tail, consuming
everything. -/
theorem matchDashAt_ws_live (t b : List Nat)
    (ht : ∀ c ∈ t, pyIsSpace c = true) (hb : ∀ c ∈ b, c ≠ 10) :
    matchDashAt (t ++ (32 :: 45 :: 32 :: (76 :: 105 :: 118 :: 101 :: b))) = some [] := by
  have h45 : pyIsSpace 45 = false := by decide
  have h76 : pyIsSpace 76 = false := by decide
  have h1 : (t ++ (32 :: 45 :: 32 :: (76 :: 105 :: 118 :: 101 :: b))).dropWhile pyIsSpace
      = 45 :: 32 :: (76 :: 105 :: 118 :: 101 :: b) := by
    have e : t ++ (32 :: 45 :: 32 :: (76 :: 105 :: 118 :: 101 :: b))
        = (t ++ [32]) ++ (45 :: 32 :: (76 :: 105 :: 118 :: 101 :: b)) := by
      simp
    rw [e]
    rw [dropWhile_append_all (45 :: 32 :: (76 :: 105 :: 118 :: 101 :: b))
      (fun c hc => by
        rcases List.mem_append.mp hc with hc | hc
        · exact ht c hc
        · simp at hc
          subst hc
          rfl)]
    simp [List.dropWhile_cons, h45]
  have h32 : pyIsSpace 32 = true := by decide
  have h2 : (32 :: (76 :: 105 :: 118 :: 101 :: b)).dropWhile pyIsSpace
      = 76 :: 105 :: 118 :: 101 :: b := by
    simp [List.dropWhile_cons, h76, h32]
  have h3 : tryAltsCI modAlternatives (76 :: 105 :: 118 :: 101 :: b) = some b := by
    have hmod : modAlternatives
        = [[76, 105, 118, 101], [65, 99, 111, 117, 115, 116, 105, 99],
           [68, 101, 109, 111], [82, 101, 109, 105, 120]] := by decide
    rw [hmod]
    simp [tryAltsCI, stripPrefixCI, asciiLower]
  have h4 : b.dropWhile (fun ch => ch != 10) = [] := by
    simpa using dropWhile_append_all (p := fun ch => ch != 10) ([] : List Nat)
      (u := b) (fun c hc => by simpa using hb c hc)
  unfold matchDashAt
  rw [h1]
  simp [h2, h3, h4]

/-- The trailing-modifier pattern cannot match at the start of a string
whose first non-whitespace character is not a hyphen. -/
theorem matchDashAt_stop (t v : List Nat)
    (hne : ¬ ∀ c ∈ t, pyIsSpace c = true) (ht : ∀ c ∈ t, c ≠ 45) :
    matchDashAt (t ++ v) = none := by
  obtain ⟨x, xs, hx1, hx2, hx3⟩ := dropWhile_not_all hne
  unfold matchDashAt
  rw [dropWhile_append_stop v hne, hx1]
  simp [List.cons_append, ht x hx3]

/-- The fueled dash substitution driver on the empty string. -/
theorem pySubDashFuel_nil (f : Nat) : pySubDashFuel f [] = [] := by
  cases f <;> rfl

/-- Stripping a trailing hyphen modifier: for a hyphen-free title
followed by space, hyphen, space, the literal Live and a newline-free
tail, the substitution removes everything from the whitespace before the
hyphen on. -/
theorem pySubDashFuel_suffix (b : List Nat) (hb : ∀ c ∈ b, c ≠ 10) :
    ∀ (t : List Nat) (fuel : Nat),
      (t ++ (32 :: 45 :: 32 :: (76 :: 105 :: 118 :: 101 :: b))).length ≤ fuel →
      (∀ c ∈ t, c ≠ 45) →
      pySubDashFuel fuel (t ++ (32 :: 45 :: 32 :: (76 :: 105 :: 118 :: 101 :: b)))
        = rtrimWs t := by
  intro t
  induction t with
  | nil =>
    intro fuel hfuel _
    obtain ⟨f, rfl⟩ : ∃ f, fuel = f + 1 := by
      cases fuel
      · simp at hfuel
      · exact ⟨_, rfl⟩
    have hm := matchDashAt_ws_live [] b (by simp) hb
    simp only [List.nil_append] at hm ⊢
    simp only [pySubDashFuel, hm]
    exact pySubDashFuel_nil f
  | cons c t' ih =>
    intro fuel hfuel ht
    obtain ⟨f, rfl⟩ : ∃ f, fuel = f + 1 := by
      cases fuel
      · simp at hfuel
      · exact ⟨_, rfl⟩
    by_cases hall : ∀ x ∈ c :: t', pyIsSpace x = true
    · have hm := matchDashAt_ws_live (c :: t') b hall hb
      simp only [List.cons_append] at hm ⊢
      simp only [pySubDashFuel, hm]
      rw [pySubDashFuel_nil f, rtrimWs_all (c :: t') hall]
    · have hm : matchDashAt ((c :: t') ++ (32 :: 45 :: 32 :: (76 :: 105 :: 118 :: 101 :: b)))
          = none :=
        matchDashAt_stop (c :: t') _ hall ht
      simp only [List.cons_append] at hm ⊢
      simp only [pySubDashFuel, hm]
      rw [ih f (by simpa using Nat.le_of_succ_le_succ (by simpa using hfuel))
        (fun x hx => ht x (List.mem_cons_of_mem c hx))]
      rw [rtrimWs_cons hall]

/-- The featuring separator matches at a whitespace run followed by the
literal feat. and another whitespace. -/
theorem matchFeatAt_sep (c : Nat) (t b : List Nat)
    (hc : pyIsSpace c = true) (ht : ∀ x ∈ t, pyIsSpace x = true) :
    matchFeatAt (c :: (t ++ (102 :: 101 :: 97 :: 116 :: 46 :: 32 :: b))) = true := by
  have h102 : pyIsSpace 102 = false := by decide
  have hdw : (c :: (t ++ (102 :: 101 :: 97 :: 116 :: 46 :: 32 :: b))).dropWhile pyIsSpace
      = 102 :: 101 :: 97 :: 116 :: 46 :: 32 :: b := by
    have e : c :: (t ++ (102 :: 101 :: 97 :: 116 :: 46 :: 32 :: b))
        = (c :: t) ++ (102 :: 101 :: 97 :: 116 :: 46 :: 32 :: b) := by
      simp
    rw [e]
    rw [dropWhile_append_all (102 :: 101 :: 97 :: 116 :: 46 :: 32 :: b)
      (fun x hx => by
        rcases List.mem_cons.mp hx with rfl | hx
        · exact hc
        · exact ht x hx)]
    simp [List.dropWhile_cons, h102]
  simp only [matchFeatAt]
  rw [hdw, hc]
  rfl

/-- No featuring alternative matches when the next character does not
lower-case to the letter f. -/
theorem featAltAt_no_f (alt : List Nat) (halt : alt ∈ featAlternatives)
    (x : Nat) (xs : List Nat) (hx : asciiLower x ≠ 102) :
    featAltAt alt (x :: xs) = false := by
  have he : featAlternatives
      = [[102, 101, 97, 116, 46], [102, 116, 46],
         [102, 101, 97, 116, 117, 114, 105, 110, 103]] := by decide
  have h102 : asciiLower 102 = 102 := by decide
  rw [he] at halt
  simp only [List.mem_cons, List.mem_singleton] at halt
  rcases halt with rfl | rfl | rfl | h
  · simp [featAltAt, stripPrefixCI, h102, hx]
  · simp [featAltAt, stripPrefixCI, h102, hx]
  · simp [featAltAt, stripPrefixCI, h102, hx]
  · exact absurd h (by simp)

/-- The featuring separator cannot match at the start of a string whose
first non-whitespace character does not lower-case to f. -/
theorem matchFeatAt_stop (u X : List Nat)
    (hne : ¬ ∀ x ∈ u, pyIsSpace x = true)
    (hf : ∀ x ∈ u, asciiLower x ≠ 102) :
    matchFeatAt (u ++ X) = false := by
  cases u with
  | nil => exact absurd (by simp) hne
  | cons c t' =>
    obtain ⟨x, xs, hx1, hx2, hx3⟩ := dropWhile_not_all hne
    have hdw : (c :: (t' ++ X)).dropWhile pyIsSpace = x :: (xs ++ X) := by
      have h := dropWhile_append_stop X hne
      rw [hx1] at h
      simpa using h
    simp only [List.cons_append]
    simp only [matchFeatAt]
    rw [hdw]
    have hany : featAlternatives.any
        (fun alt => featAltAt alt (x :: (xs ++ X))) = false := by
      rw [List.any_eq_false]
      intro alt halt
      rw [featAltAt_no_f alt halt x (xs ++ X) (hf x hx3)]
      exact Bool.false_ne_true
    rw [hany]
    simp

/-- Truncating the artist at the featuring separator: with no character
of the artist lower-casing to f, the split keeps exactly the artist text
before the separator, with its trailing whitespace removed. -/
theorem pySplitFeatHead_suffix (b : List Nat) :
    ∀ a : List Nat, (∀ x ∈ a, asciiLower x ≠ 102) →
      pySplitFeatHead (a ++ (32 :: 102 :: 101 :: 97 :: 116 :: 46 :: 32 :: b))
        = rtrimWs a := by
  intro a
  induction a with
  | nil =>
    intro _
    have hm := matchFeatAt_sep 32 [] b (by decide) (by simp)
    simp only [List.nil_append] at hm ⊢
    simp [pySplitFeatHead, hm, rtrimWs]
  | cons c a' ih =>
    intro hf
    by_cases hall : ∀ x ∈ c :: a', pyIsSpace x = true
    · have hc : pyIsSpace c = true := hall c (List.mem_cons_self c a')
      have hm := matchFeatAt_sep c (a' ++ [32]) b hc
        (fun x hx => by
          rcases List.mem_append.mp hx with hx | hx
          · exact hall x (List.mem_cons_of_mem c hx)
          · simp at hx
            subst hx
            rfl)
      have e : c :: ((a' ++ [32]) ++ (102 :: 101 :: 97 :: 116 :: 46 :: 32 :: b))
          = c :: (a' ++ (32 :: 102 :: 101 :: 97 :: 116 :: 46 :: 32 :: b)) := by
        simp
      rw [e] at hm
      simp only [List.cons_append]
      simp [pySplitFeatHead, hm, rtrimWs_all (c :: a') hall]
    · have hm : matchFeatAt ((c :: a')
          ++ (32 :: 102 :: 101 :: 97 :: 116 :: 46 :: 32 :: b)) = false :=
        matchFeatAt_stop (c :: a') _ hall hf
      simp only [List.cons_append] at hm ⊢
      simp only [pySplitFeatHead, hm, Bool.false_eq_true, if_false, ite_false]
      rw [ih (fun x hx => hf x (List.mem_cons_of_mem c hx))]
      rw [rtrimWs_cons hall]

/-- The query loop issues exactly the plan up to and including the first
query with candidates. -/
theorem loop_issued_eq_spec (env : Env) (cache : List (List Nat × Nat))
    (key ca cs : List Nat) (plan : List (List Nat)) :
    (search_video_loop env cache key ca cs plan).issued
      = specIssuedQueries env plan := by
  induction plan with
  | nil => rfl
  | cons q qs ih =>
    rcases hit : env.search q with _ | ⟨it, its⟩
    · simp only [search_video_loop, specIssuedQueries, hit]
      simp [select_in_items, ih]
    · simp only [search_video_loop, specIssuedQueries, hit]
      rw [if_neg (by simp)]
      rcases hsel : select_in_items ca cs (it :: its) with _ | vid <;> simp [hsel]

/-- The first query issued by the loop is the head of the plan. -/
theorem loop_issued_head (env : Env) (cache : List (List Nat × Nat))
    (key ca cs q : List Nat) (qs : List (List Nat)) :
    (search_video_loop env cache key ca cs (q :: qs)).issued.headD [] = q := by
  rcases hit : env.search q with _ | ⟨it, its⟩
  · simp only [search_video_loop, hit]
    simp [select_in_items]
  · simp only [search_video_loop, hit]
    rcases hsel : select_in_items ca cs (it :: its) with _ | vid <;> simp [hsel]

/-- C7: normalization strips a parenthesized suffix and a trailing Live
modifier from the title and truncates the artist at the first featuring
separator; the query plan is the four fixed queries in order, stopping
at the first query with any candidates; and the concrete pair Foo feat.
Bar with Song (Remastered) normalizes to Foo and Song with first query
Foo Song official music video.  Code points: 32 space, 40 and 41
parentheses, 45 hyphen, 10 newline; 76 105 118 101 spells Live and 102
101 97 116 46 spells feat followed by a dot. -/
theorem C7_normalization_and_query_plan :
    (clean_search_terms (strL r"Foo feat. Bar") (strL r"Song (Remastered)")
      = (strL r"Foo", strL r"Song")) ∧
    (∀ env : Env,
      (search_video env [] (strL r"Foo feat. Bar")
          (strL r"Song (Remastered)")).issued.headD []
        = strL r"Foo Song official music video") ∧
    (∀ (env : Env) (cache : List (List Nat × Nat)) (artist song : List Nat),
      lookupCache cache (mkSearchKey (clean_search_terms artist song).1
        (clean_search_terms artist song).2) = none →
      (search_video env cache artist song).issued
        = specIssuedQueries env
            (search_queries (clean_search_terms artist song).1
              (clean_search_terms artist song).2)) ∧
    (∀ t w : List Nat, (∀ c ∈ t, c ≠ 40) → (∀ c ∈ w, c ≠ 41) →
      pySubParens (t ++ (32 :: 40 :: (w ++ [41]))) = rtrimWs t) ∧
    (∀ t b : List Nat, (∀ c ∈ t, c ≠ 45) → (∀ c ∈ b, c ≠ 10) →
      pySubDash (t ++ (32 :: 45 :: 32 :: (76 :: 105 :: 118 :: 101 :: b)))
        = rtrimWs t) ∧
    (∀ a b : List Nat, (∀ x ∈ a, asciiLower x ≠ 102) →
      pySplitFeatHead (a ++ (32 :: 102 :: 101 :: 97 :: 116 :: 46 :: 32 :: b))
        = rtrimWs a) := by
  refine ⟨by decide, ?_, ?_, ?_, ?_, ?_⟩
  · intro env
    have hclean : clean_search_terms (strL r"Foo feat. Bar") (strL r"Song (Remastered)")
        = (strL r"Foo", strL r"Song") := by decide
    simp only [search_video, hclean]
    exact loop_issued_head env [] _ _ _ _ _
  · intro env cache artist song hmiss
    simp only [search_video, hmiss]
    exact loop_issued_eq_spec env cache _ _ _ _
  · intro t w ht hw
    exact pySubParensFuel_suffix w hw t _ le_rfl ht
  · intro t b ht hb
    exact pySubDashFuel_suffix b hb t _ le_rfl ht
  · intro a b hf
    exact pySplitFeatHead_suffix b a hf

/-- C7 witness: the issued-query property at a concrete environment with
an empty cache, and the three normalization properties at concrete
titles and artists. -/
theorem C7_normalization_and_query_plan_witness :
    ((search_video envOne [] (strL r"Foo") (strL r"Bar")).issued
      = specIssuedQueries envOne
          (search_queries (clean_search_terms (strL r"Foo") (strL r"Bar")).1
            (clean_search_terms (strL r"Foo") (strL r"Bar")).2)) ∧
    pySubParens (strL r"Song" ++ (32 :: 40 :: (strL r"Live" ++ [41])))
      = rtrimWs (strL r"Song") ∧
    pySubDash (strL r"Song" ++ (32 :: 45 :: 32 :: (76 :: 105 :: 118 :: 101 ::
        strL r" Version"))) = rtrimWs (strL r"Song") ∧
    pySplitFeatHead (strL r"Queen" ++ (32 :: 102 :: 101 :: 97 :: 116 :: 46 :: 32 ::
        strL r"Bowie")) = rtrimWs (strL r"Queen") := by
  refine ⟨?_, ?_, ?_, ?_⟩
  · exact C7_normalization_and_query_plan.2.2.1 envOne [] (strL r"Foo") (strL r"Bar")
      (by decide)
  · exact C7_normalization_and_query_plan.2.2.2.1 (strL r"Song") (strL r"Live")
      (by decide) (by decide)
  · exact C7_normalization_and_query_plan.2.2.2.2.1 (strL r"Song") (strL r" Version")
      (by decide) (by decide)
  · exact C7_normalization_and_query_plan.2.2.2.2.2 (strL r"Queen") (strL r"Bowie")
      (by decide)

end RB3
